import Mathlib

/-!
Shallow embedding of `src/todo.rs` (bocaletto-luca/ToDoList-Rust), a single-file
to-do CLI.  Tasks are stored as a JSON array in one file; each invocation loads
the collection, applies one command, and (for mutating commands) saves it back.

The embedding mirrors the source:
* `Task`, `Commands` mirror the Rust structs/enums (`usize` becomes `Nat`);
* `next_id`, `load_tasks`, `save_tasks` mirror the functions of the same names;
* `dispatch` mirrors the `match cli.cmd` block of `main`, `runInvocation` the
  whole of `main` (load, dispatch, error printing);
* the file system is a `Disk` value (data directory existence plus optional
  file contents); `serde_json` parsing/serialization and I/O failures are
  parameters (`parse`, `serialize`, `dirOk`, `saveErr`), since they are
  external collaborators, not code of this repository.  The save path keeps
  the code's truncate-then-write shape: `File::create` truncates the file
  before `write_all`, so a failed write leaves the written prefix of the new
  data, not the previous contents.
-/

namespace ToDo

/-- Mirrors `struct Task` of src/todo.rs: id (`usize`), description, done flag. -/
structure Task where
  id : Nat
  description : String
  done : Bool
deriving Repr, DecidableEq

/-- Mirrors `enum Commands` of src/todo.rs: the five subcommands. -/
inductive Commands where
  | add (description : List String)
  | list
  | done (id : Nat)
  | remove (id : Nat)
  | clear
deriving Repr, DecidableEq

/-- Mirrors `next_id` of src/todo.rs: `tasks.iter().map(|t| t.id).max().unwrap_or(0) + 1`. -/
def next_id (tasks : List Task) : Nat :=
  (tasks.map Task.id).foldl max 0 + 1

/-- The persistent state: whether the data directory exists, and the contents
of `tasks.json` (`none` = file absent). -/
structure Disk where
  dirExists : Bool
  file : Option String
deriving Repr, DecidableEq

/-- Mirrors `data_file` of src/todo.rs: resolve the data directory (this can fail:
`ProjectDirs::from(...).ok_or_else(...)`, modeled by the `dirOk` oracle) and
`fs::create_dir_all` it. -/
def data_file (dirOk : Bool) (disk : Disk) : Except String Disk :=
  if dirOk then .ok { disk with dirExists := true }
  else .error "Cannot determine data directory"

/-- Mirrors `load_tasks` of src/todo.rs: missing file yields the empty collection,
otherwise the file is parsed (`serde_json::from_reader`, the `parse`
parameter) and a parse failure propagates.  Returns the disk after the
`data_file` side effect together with the result. -/
def load_tasks (parse : String → Except String (List Task))
    (dirOk : Bool) (disk : Disk) : Disk × Except String (List Task) :=
  match data_file dirOk disk with
  | .error e => (disk, .error e)
  | .ok disk1 =>
    match disk1.file with
    | none => (disk1, .ok [])
    | some raw => (disk1, parse raw)

/-- How the `File::create(path)` + `file.write_all(data)` pair in `save_tasks`
can fail: `createFail` — `File::create` itself errors, leaving the file
untouched; `writeFail msg written` — `File::create` succeeded (truncating any
existing file to empty) and `write_all` errored after durably writing the
first `written` characters of the data.  `writeFail _ 0` is the bare
truncation (nothing written, e.g. disk full at once). -/
inductive WriteFail where
  | createFail (msg : String)
  | writeFail (msg : String) (written : Nat)
deriving Repr, DecidableEq

/-- Mirrors `save_tasks` of src/todo.rs: `File::create(path)?` — which
truncates an existing file — then serialize the whole collection
(`serde_json::to_string_pretty`, the `serialize` parameter) and
`write_all` it.  The write is NOT atomic: on a `writeFail` the file is left
holding the written prefix of the new data, not the previous contents
(spec section 9 flags this plain overwrite; section 4.1's temp-file-plus-
rename is a recommended strengthening the code does not implement). -/
def save_tasks (serialize : List Task → String) (dirOk : Bool)
    (saveErr : Option WriteFail) (disk : Disk) (tasks : List Task) :
    Disk × Option String :=
  match data_file dirOk disk with
  | .error e => (disk, some e)
  | .ok disk1 =>
    match saveErr with
    | some (.createFail e) => (disk1, some e)
    | some (.writeFail e written) =>
      ({ disk1 with file := some ((serialize tasks).take written) }, some e)
    | none => ({ disk1 with file := some (serialize tasks) }, none)

/-- The in-memory mutation of the `Add` arm: join the arguments with spaces,
compute `next_id`, push the new task.  Returns (new collection, id, text). -/
def addStep (tasks : List Task) (description : List String) :
    List Task × Nat × String :=
  let desc := String.intercalate " " description
  let id := next_id tasks
  (tasks ++ [{ id := id, description := desc, done := false }], id, desc)

/-- The in-memory mutation of the `Done` arm:
`tasks.iter_mut().find(|t| t.id == id)` sets `done = true` on the first task
with the given id; `none` when no task matches. -/
def doneStep : List Task → Nat → Option (List Task)
  | [], _ => none
  | t :: ts, id =>
    if t.id = id then some ({ t with done := true } :: ts)
    else (doneStep ts id).map (t :: ·)

/-- The in-memory mutation of the `Remove` arm:
`tasks.retain(|t| t.id != id)` keeps exactly the tasks whose id differs. -/
def removeStep (tasks : List Task) (id : Nat) : List Task :=
  tasks.filter (fun t => t.id ≠ id)

/-- The observable result of one invocation of `main`: final disk, final
in-memory collection, stdout lines, and the stderr message if the process
exits with status 1 (`none` = success, exit 0). -/
structure Outcome where
  disk : Disk
  tasks : List Task
  output : List String
  err : Option String
deriving Repr, DecidableEq

/-- The `save_tasks(&tasks).map_err(|e| format!("Save error: {}", e))
.map(|_| println!(...))` pattern shared by the four mutating arms of `main`:
save the mutated collection, print `okMsg` on success, otherwise report the
save failure. -/
def saveAndReport (serialize : List Task → String) (dirOk : Bool)
    (saveErr : Option WriteFail) (disk : Disk) (tasks1 : List Task)
    (okMsg : String) : Outcome :=
  let r := save_tasks serialize dirOk saveErr disk tasks1
  match r.2 with
  | none => { disk := r.1, tasks := tasks1, output := [okMsg], err := none }
  | some e => { disk := r.1, tasks := tasks1, output := [],
                err := some ("Save error: " ++ e) }

/-- The `match cli.cmd` block of `main` in src/todo.rs, acting on the loaded
collection: each arm mutates and then saves (List excepted).  `err` carries
the arm's `Err(String)` message, not yet prefixed with `Error: `. -/
def dispatch (serialize : List Task → String) (dirOk : Bool)
    (saveErr : Option WriteFail) (disk : Disk) (tasks : List Task) :
    Commands → Outcome
  | .add description =>
    let desc := String.intercalate " " description
    let id := next_id tasks
    let tasks1 := tasks ++ [{ id := id, description := desc, done := false }]
    saveAndReport serialize dirOk saveErr disk tasks1
      ("[+] Added #" ++ toString id ++ ": " ++ desc)
  | .list =>
    if tasks.isEmpty then
      { disk := disk, tasks := tasks, output := ["No tasks found."], err := none }
    else
      { disk := disk, tasks := tasks,
        output := tasks.map (fun t =>
          (if t.done then "[x]" else "[ ]") ++ " " ++ toString t.id ++ ": " ++
            t.description),
        err := none }
  | .done id =>
    match doneStep tasks id with
    | some tasks1 =>
      saveAndReport serialize dirOk saveErr disk tasks1
        ("[✓] Marked #" ++ toString id ++ " done.")
    | none =>
      { disk := disk, tasks := tasks, output := [],
        err := some ("Task #" ++ toString id ++ " not found.") }
  | .remove id =>
    let tasks1 := removeStep tasks id
    if tasks1.length < tasks.length then
      saveAndReport serialize dirOk saveErr disk tasks1
        ("[-] Removed #" ++ toString id ++ ".")
    else
      { disk := disk, tasks := tasks1, output := [],
        err := some ("Task #" ++ toString id ++ " not found.") }
  | .clear =>
    saveAndReport serialize dirOk saveErr disk [] "[!] All tasks cleared."

/-- Mirrors `main` of src/todo.rs: load, dispatch one command, print errors to stderr
with their prefixes (`Error loading tasks: ` for a load failure, `Error: `
for a command failure) and exit 1 on error. -/
def runInvocation (parse : String → Except String (List Task))
    (serialize : List Task → String) (dirOk : Bool) (saveErr : Option WriteFail)
    (disk : Disk) (cmd : Commands) : Outcome :=
  match load_tasks parse dirOk disk with
  | (disk1, .error e) =>
    { disk := disk1, tasks := [], output := [],
      err := some ("Error loading tasks: " ++ e) }
  | (disk1, .ok tasks) =>
    let o := dispatch serialize dirOk saveErr disk1 tasks cmd
    match o.err with
    | none => o
    | some m => { o with err := some ("Error: " ++ m) }

/-- A sequence of Add operations; returns the final collection and the list of
ids assigned, in order. -/
def runAdds : List Task → List (List String) → List Task × List Nat
  | tasks, [] => (tasks, [])
  | tasks, d :: ds =>
    let (tasks1, id, _) := addStep tasks d
    let (tasksF, ids) := runAdds tasks1 ds
    (tasksF, id :: ids)

/-- An Add or Remove operation, for sequences interleaving the two. -/
inductive Op where
  | add (description : List String)
  | remove (id : Nat)
deriving Repr, DecidableEq

/-- A sequence of Add/Remove operations (each the in-memory mutation of the
corresponding arm of `main`); returns the final collection and the ids
assigned by the Add operations, in order. -/
def runOps : List Task → List Op → List Task × List Nat
  | tasks, [] => (tasks, [])
  | tasks, .add d :: ops =>
    let (tasks1, id, _) := addStep tasks d
    let (tasksF, ids) := runOps tasks1 ops
    (tasksF, id :: ids)
  | tasks, .remove id :: ops => runOps (removeStep tasks id) ops

/-! ### Library lemmas about `foldl max`, `next_id`, and the step functions -/

theorem le_foldl_max (l : List Nat) (b : Nat) : b ≤ l.foldl max b := by
  induction l generalizing b with
  | nil => simp
  | cons a l ih => exact le_trans (le_max_left b a) (ih (max b a))

theorem mem_le_foldl_max {a : Nat} {l : List Nat} (h : a ∈ l) (b : Nat) :
    a ≤ l.foldl max b := by
  induction l generalizing b with
  | nil => cases h
  | cons x l ih =>
    rcases List.mem_cons.mp h with rfl | h2
    · exact le_trans (le_max_right b a) (le_foldl_max l (max b a))
    · exact ih h2 (max b x)

theorem foldl_max_mem (l : List Nat) (b : Nat) :
    l.foldl max b ∈ l ∨ l.foldl max b = b := by
  induction l generalizing b with
  | nil => simp
  | cons a l ih =>
    rcases ih (max b a) with h | h
    · exact Or.inl (List.mem_cons_of_mem a h)
    · rcases max_choice b a with hb | ha
      · right; rw [List.foldl_cons, h, hb]
      · left; rw [List.foldl_cons, h, ha]; exact List.mem_cons_self a l

theorem id_lt_next_id {t : Task} {tasks : List Task} (h : t ∈ tasks) :
    t.id < next_id tasks :=
  Nat.lt_succ_of_le (mem_le_foldl_max (List.mem_map_of_mem Task.id h) 0)

theorem next_id_le_next_id_append (tasks l : List Task) :
    next_id tasks ≤ next_id (tasks ++ l) := by
  have : (tasks.map Task.id).foldl max 0 ≤
      ((tasks ++ l).map Task.id).foldl max 0 := by
    rw [List.map_append, List.foldl_append]
    exact le_foldl_max _ _
  unfold next_id
  omega

theorem next_id_attained {tasks : List Task} (h : tasks ≠ []) :
    ∃ t ∈ tasks, next_id tasks = t.id + 1 := by
  rcases foldl_max_mem (tasks.map Task.id) 0 with hm | h0
  · rcases List.mem_map.mp hm with ⟨t, ht, hid⟩
    exact ⟨t, ht, by unfold next_id; omega⟩
  · rcases tasks with _ | ⟨t, ts⟩
    · cases h rfl
    · have hmem : t.id ∈ (t :: ts).map Task.id := by simp
      have hle := mem_le_foldl_max hmem 0
      refine ⟨t, List.mem_cons_self t ts, ?_⟩
      unfold next_id
      omega

theorem doneStep_eq_none_iff (tasks : List Task) (id : Nat) :
    doneStep tasks id = none ↔ ∀ t ∈ tasks, t.id ≠ id := by
  induction tasks with
  | nil => simp [doneStep]
  | cons t ts ih =>
    by_cases h : t.id = id
    · simp [doneStep, h]
    · simp [doneStep, h, Option.map_eq_none', ih]

theorem doneStep_append_first (pre : List Task) (t : Task) (post : List Task)
    (id : Nat) (ht : t.id = id) (hpre : ∀ u ∈ pre, u.id ≠ id) :
    doneStep (pre ++ t :: post) id =
      some (pre ++ { t with done := true } :: post) := by
  induction pre with
  | nil => simp [doneStep, ht]
  | cons u us ih =>
    have hu : u.id ≠ id := hpre u (List.mem_cons_self u us)
    simp [doneStep, hu, ih (fun v hv => hpre v (List.mem_cons_of_mem u hv))]

theorem doneStep_eq_some (tasks : List Task) (id : Nat) (ts1 : List Task)
    (h : doneStep tasks id = some ts1) :
    ∃ pre t post, tasks = pre ++ t :: post ∧ t.id = id ∧
      (∀ u ∈ pre, u.id ≠ id) ∧ ts1 = pre ++ { t with done := true } :: post := by
  induction tasks generalizing ts1 with
  | nil => simp [doneStep] at h
  | cons t ts ih =>
    by_cases hid : t.id = id
    · simp only [doneStep, if_pos hid, Option.some_inj] at h
      exact ⟨[], t, ts, by simp, hid, by simp, h.symm⟩
    · simp only [doneStep, if_neg hid, Option.map_eq_some'] at h
      rcases h with ⟨a, ha, rfl⟩
      rcases ih a ha with ⟨pre, u, post, rfl, hu, hpre, rfl⟩
      refine ⟨t :: pre, u, post, by simp, hu, ?_, by simp⟩
      intro v hv
      rcases List.mem_cons.mp hv with rfl | hv2
      · exact hid
      · exact hpre v hv2

theorem removeStep_sublist (tasks : List Task) (id : Nat) :
    List.Sublist (removeStep tasks id) tasks :=
  List.filter_sublist tasks

theorem mem_removeStep (tasks : List Task) (id : Nat) (t : Task) :
    t ∈ removeStep tasks id ↔ t ∈ tasks ∧ t.id ≠ id := by
  simp [removeStep, List.mem_filter]

theorem removeStep_eq_self (tasks : List Task) (id : Nat)
    (h : ∀ t ∈ tasks, t.id ≠ id) : removeStep tasks id = tasks :=
  List.filter_eq_self.mpr (fun t ht => by simp [h t ht])

theorem removeStep_length_lt (tasks : List Task) (id : Nat) :
    (removeStep tasks id).length < tasks.length ↔ ∃ t ∈ tasks, t.id = id := by
  constructor
  · intro h
    by_contra hc
    push_neg at hc
    rw [removeStep_eq_self tasks id hc] at h
    omega
  · rintro ⟨t, ht, hid⟩
    have hsub := removeStep_sublist tasks id
    rcases lt_or_eq_of_le hsub.length_le with hlt | heq
    · exact hlt
    · have heq2 : removeStep tasks id = tasks := hsub.eq_of_length heq
      have hmem : t ∈ removeStep tasks id := by rw [heq2]; exact ht
      exact absurd hid ((mem_removeStep tasks id t).mp hmem).2

theorem runAdds_ids_ge (ds : List (List String)) (tasks : List Task) :
    ∀ x ∈ (runAdds tasks ds).2, next_id tasks ≤ x := by
  induction ds generalizing tasks with
  | nil => simp [runAdds]
  | cons d ds ih =>
    intro x hx
    simp only [runAdds, addStep, List.mem_cons] at hx
    rcases hx with rfl | hx
    · exact le_refl _
    · exact le_trans (next_id_le_next_id_append tasks _) (ih _ x hx)

theorem runAdds_pairwise (ds : List (List String)) (tasks : List Task) :
    ((runAdds tasks ds).2).Pairwise (· < ·) := by
  induction ds generalizing tasks with
  | nil => simp [runAdds]
  | cons d ds ih =>
    simp only [runAdds, addStep, List.pairwise_cons]
    refine ⟨fun x hx => ?_, ih _⟩
    have h1 := runAdds_ids_ge ds
      (tasks ++ [{ id := next_id tasks,
                   description := String.intercalate " " d, done := false }]) x hx
    have h2 : next_id tasks <
        next_id (tasks ++ [{ id := next_id tasks,
                             description := String.intercalate " " d,
                             done := false }]) :=
      id_lt_next_id (t := { id := next_id tasks,
                            description := String.intercalate " " d,
                            done := false }) (by simp)
    omega

theorem load_tasks_fst_file (parse : String → Except String (List Task))
    (dirOk : Bool) (disk : Disk) :
    (load_tasks parse dirOk disk).1.file = disk.file := by
  cases dirOk <;> cases hf : disk.file <;> simp [load_tasks, data_file, hf]

theorem save_tasks_err_cases (serialize : List Task → String) (dirOk : Bool)
    (saveErr : Option WriteFail) (disk : Disk) (tasks : List Task)
    (h : (save_tasks serialize dirOk saveErr disk tasks).2 ≠ none) :
    (save_tasks serialize dirOk saveErr disk tasks).1.file = disk.file ∨
      ∃ m k, saveErr = some (.writeFail m k) ∧
        (save_tasks serialize dirOk saveErr disk tasks).1.file =
          some ((serialize tasks).take k) := by
  rcases saveErr with _ | f
  · cases dirOk <;> simp [save_tasks, data_file] at h ⊢
  · cases f with
    | createFail e => cases dirOk <;> simp [save_tasks, data_file]
    | writeFail e k =>
      cases dirOk
      · left; simp [save_tasks, data_file]
      · right; exact ⟨e, k, rfl, by simp [save_tasks, data_file]⟩

theorem saveAndReport_tasks (serialize : List Task → String) (dirOk : Bool)
    (saveErr : Option WriteFail) (disk : Disk) (tasks1 : List Task)
    (okMsg : String) :
    (saveAndReport serialize dirOk saveErr disk tasks1 okMsg).tasks = tasks1 := by
  simp only [saveAndReport]
  split <;> rfl

theorem saveAndReport_err_shape (serialize : List Task → String) (dirOk : Bool)
    (saveErr : Option WriteFail) (disk : Disk) (tasks1 : List Task)
    (okMsg : String) :
    (saveAndReport serialize dirOk saveErr disk tasks1 okMsg).err = none ∨
      ∃ e, (saveAndReport serialize dirOk saveErr disk tasks1 okMsg).err =
        some ("Save error: " ++ e) := by
  simp only [saveAndReport]
  split
  · exact Or.inl rfl
  · exact Or.inr ⟨_, rfl⟩

theorem saveAndReport_err_cases (serialize : List Task → String) (dirOk : Bool)
    (saveErr : Option WriteFail) (disk : Disk) (tasks1 : List Task)
    (okMsg e : String)
    (h : (saveAndReport serialize dirOk saveErr disk tasks1 okMsg).err = some e) :
    (saveAndReport serialize dirOk saveErr disk tasks1 okMsg).disk.file =
        disk.file ∨
      ∃ m k, saveErr = some (.writeFail m k) ∧
        (saveAndReport serialize dirOk saveErr disk tasks1 okMsg).disk.file =
          some ((serialize tasks1).take k) := by
  simp only [saveAndReport] at h ⊢
  split at h
  · simp at h
  · rename_i e2 hs
    exact save_tasks_err_cases serialize dirOk saveErr disk tasks1
      (by rw [hs]; simp)

theorem saveAndReport_success (serialize : List Task → String) (disk : Disk)
    (tasks1 : List Task) (okMsg : String) :
    saveAndReport serialize true none disk tasks1 okMsg =
      { disk := { dirExists := true, file := some (serialize tasks1) },
        tasks := tasks1, output := [okMsg], err := none } := by
  simp [saveAndReport, save_tasks, data_file]

theorem dispatch_err_cases (serialize : List Task → String) (dirOk : Bool)
    (saveErr : Option WriteFail) (disk : Disk) (tasks : List Task)
    (cmd : Commands) (e : String)
    (h : (dispatch serialize dirOk saveErr disk tasks cmd).err = some e) :
    (dispatch serialize dirOk saveErr disk tasks cmd).disk.file = disk.file ∨
      ∃ m k tasks1, saveErr = some (.writeFail m k) ∧
        (dispatch serialize dirOk saveErr disk tasks cmd).disk.file =
          some ((serialize tasks1).take k) := by
  cases cmd with
  | add d =>
    rcases saveAndReport_err_cases serialize dirOk saveErr disk _ _ e h with
      h1 | ⟨m, k, hk, h2⟩
    · exact Or.inl h1
    · exact Or.inr ⟨m, k, _, hk, h2⟩
  | list =>
    by_cases he : tasks.isEmpty <;> simp [dispatch, he] at h
  | done id =>
    rcases hd : doneStep tasks id with _ | ts1
    · left; simp [dispatch, hd]
    · simp only [dispatch, hd] at h ⊢
      rcases saveAndReport_err_cases serialize dirOk saveErr disk _ _ e h with
        h1 | ⟨m, k, hk, h2⟩
      · exact Or.inl h1
      · exact Or.inr ⟨m, k, _, hk, h2⟩
  | remove id =>
    by_cases hl : (removeStep tasks id).length < tasks.length
    · simp only [dispatch, if_pos hl] at h ⊢
      rcases saveAndReport_err_cases serialize dirOk saveErr disk _ _ e h with
        h1 | ⟨m, k, hk, h2⟩
      · exact Or.inl h1
      · exact Or.inr ⟨m, k, _, hk, h2⟩
    · left; simp [dispatch, if_neg hl]
  | clear =>
    rcases saveAndReport_err_cases serialize dirOk saveErr disk _ _ e h with
      h1 | ⟨m, k, hk, h2⟩
    · exact Or.inl h1
    · exact Or.inr ⟨m, k, _, hk, h2⟩

/-! ### The claims -/

/-- C1 (counterexample): the claim as stated is false.  Starting from the
empty collection, the operation sequence Add, Add, Remove 2, Add assigns the
ids 1, 2, 2: after the task with the maximal id is removed, `next_id`
(recomputed as max existing id + 1) hands the id 2 out again, so the ids
assigned across the sequence are neither pairwise distinct nor strictly
increasing. -/
theorem C1_counterexample :
    (runOps [] [.add [], .add [], .remove 2, .add []]).2 = [1, 2, 2] ∧
      ¬ (runOps [] [.add [], .add [], .remove 2, .add []]).2.Nodup := by
  decide

/-- C1 (amended): for any sequence of Add operations with no interleaved
Remove, starting from any collection, the assigned ids are strictly
increasing in order of assignment — each newly assigned id strictly exceeds
every previously assigned id — and hence pairwise distinct.  (With
interleaved Removes an id can be reused, as the counterexample shows.) -/
theorem C1_adds_distinct_monotone (tasks : List Task)
    (ds : List (List String)) :
    ((runAdds tasks ds).2).Pairwise (· < ·) ∧ ((runAdds tasks ds).2).Nodup :=
  ⟨runAdds_pairwise ds tasks, (runAdds_pairwise ds tasks).imp ne_of_lt⟩

/-- C2 (counterexample): the claim as stated is false.  With the backing
file holding `OLD` (parsing to one task), a Clear whose `write_all` fails
having written nothing exits with `Error: Save error: disk full` — and the
file is now empty, not `OLD`: the `File::create` inside `save_tasks`
truncated it before the failing write, exactly the partially committed state
the claim denies. -/
theorem C2_counterexample :
    (runInvocation
          (fun _ => .ok [{ id := 1, description := "a", done := false }])
          (fun _ => "[]") true (some (.writeFail "disk full" 0))
          { dirExists := true, file := some "OLD" } .clear).err =
        some "Error: Save error: disk full" ∧
      (runInvocation
          (fun _ => .ok [{ id := 1, description := "a", done := false }])
          (fun _ => "[]") true (some (.writeFail "disk full" 0))
          { dirExists := true, file := some "OLD" } .clear).disk.file =
        some "" ∧
      (runInvocation
          (fun _ => .ok [{ id := 1, description := "a", done := false }])
          (fun _ => "[]") true (some (.writeFail "disk full" 0))
          { dirExists := true, file := some "OLD" } .clear).disk.file ≠
        ({ dirExists := true, file := some "OLD" } : Disk).file := by
  decide

/-- C2 (amended): an invocation that ends in an error leaves the backing
file unchanged unless the error is a failed `write_all`: load failures,
NotFound, and `File::create` failures change nothing; a failed write leaves
the file holding the durably written prefix of the serialization of some
collection — the truncated or partially written state that
truncate-then-write can produce.  All-or-nothing as originally claimed holds
only under spec section 4.1's temp-file-plus-rename strengthening, which the
code does not implement. -/
theorem C2_all_or_nothing_amended (parse : String → Except String (List Task))
    (serialize : List Task → String) (dirOk : Bool) (saveErr : Option WriteFail)
    (disk : Disk) (cmd : Commands) (e : String)
    (h : (runInvocation parse serialize dirOk saveErr disk cmd).err = some e) :
    ((∀ m k, saveErr ≠ some (.writeFail m k)) →
        (runInvocation parse serialize dirOk saveErr disk cmd).disk.file =
          disk.file) ∧
      ((runInvocation parse serialize dirOk saveErr disk cmd).disk.file =
          disk.file ∨
        ∃ m k tasks1, saveErr = some (.writeFail m k) ∧
          (runInvocation parse serialize dirOk saveErr disk cmd).disk.file =
            some ((serialize tasks1).take k)) := by
  have hload := load_tasks_fst_file parse dirOk disk
  have hmain :
      (runInvocation parse serialize dirOk saveErr disk cmd).disk.file =
          disk.file ∨
        ∃ m k tasks1, saveErr = some (.writeFail m k) ∧
          (runInvocation parse serialize dirOk saveErr disk cmd).disk.file =
            some ((serialize tasks1).take k) := by
    simp only [runInvocation] at h ⊢
    rcases hl : load_tasks parse dirOk disk with ⟨disk1, r⟩
    rw [hl] at h hload
    cases r with
    | error e2 => exact Or.inl hload
    | ok tasks =>
      dsimp only at h ⊢
      split at h
      · rename_i hnone
        rw [hnone] at h
        cases h
      · rename_i m2 hm
        rcases dispatch_err_cases serialize dirOk saveErr disk1 tasks cmd m2
          hm with h1 | ⟨m, k, ts1, hk, h2⟩
        · exact Or.inl (h1.trans hload)
        · exact Or.inr ⟨m, k, ts1, hk, h2⟩
  refine ⟨fun hnw => ?_, hmain⟩
  rcases hmain with h1 | ⟨m, k, ts1, hk, h2⟩
  · exact h1
  · exact absurd hk (hnw m k)

/-- C3: Add appends exactly one task carrying id `next_id tasks`, the
space-joined description, and `done = false`, leaving the existing tasks
unchanged; `next_id` is 1 on the empty collection, strictly exceeds every
existing id, and equals (max existing id) + 1 on a nonempty collection. -/
theorem C3_add_appends (tasks : List Task) (descs : List String) :
    (addStep tasks descs).1 =
        tasks ++ [{ id := next_id tasks,
                    description := String.intercalate " " descs,
                    done := false }] ∧
      (tasks = [] → next_id tasks = 1) ∧
      (∀ t ∈ tasks, t.id < next_id tasks) ∧
      (tasks ≠ [] → ∃ t ∈ tasks, next_id tasks = t.id + 1) := by
  refine ⟨rfl, ?_, fun t ht => id_lt_next_id ht, fun h => next_id_attained h⟩
  rintro rfl
  rfl

/-- C4: Done(id) fails iff no task carries the id (and then the dispatch arm
reports `Task #id not found.` and changes nothing); on success it flips done
to true on the first task carrying the id, everything else unchanged; and
after Remove(id), Done(id) fails. -/
theorem C4_done_spec (tasks : List Task) (id : Nat) :
    (doneStep tasks id = none ↔ ∀ t ∈ tasks, t.id ≠ id) ∧
      (∀ ts1, doneStep tasks id = some ts1 →
        ∃ pre t post, tasks = pre ++ t :: post ∧ t.id = id ∧
          (∀ u ∈ pre, u.id ≠ id) ∧
          ts1 = pre ++ { t with done := true } :: post) ∧
      doneStep (removeStep tasks id) id = none ∧
      (doneStep tasks id = none →
        ∀ serialize dirOk saveErr disk,
          dispatch serialize dirOk saveErr disk tasks (.done id) =
            { disk := disk, tasks := tasks, output := [],
              err := some ("Task #" ++ toString id ++ " not found.") }) := by
  refine ⟨doneStep_eq_none_iff tasks id, doneStep_eq_some tasks id, ?_, ?_⟩
  · rw [doneStep_eq_none_iff]
    intro t ht
    exact ((mem_removeStep tasks id t).mp ht).2
  · intro h serialize dirOk saveErr disk
    simp [dispatch, h]

/-- C5: Remove(id) keeps exactly the tasks whose id differs, untouched and in
the same relative order (a sublist of the original); when no task carries the
id the collection is unchanged and the dispatch arm reports
`Task #id not found.`; when one does, the arm succeeds, saves the filtered
collection and confirms. -/
theorem C5_remove_spec (tasks : List Task) (id : Nat) :
    List.Sublist (removeStep tasks id) tasks ∧
      (∀ t, t ∈ removeStep tasks id ↔ t ∈ tasks ∧ t.id ≠ id) ∧
      ((∀ t ∈ tasks, t.id ≠ id) →
        removeStep tasks id = tasks ∧
        ∀ serialize dirOk saveErr disk,
          dispatch serialize dirOk saveErr disk tasks (.remove id) =
            { disk := disk, tasks := tasks, output := [],
              err := some ("Task #" ++ toString id ++ " not found.") }) ∧
      ((∃ t ∈ tasks, t.id = id) →
        ∀ serialize disk,
          dispatch serialize true none disk tasks (.remove id) =
            { disk := { dirExists := true,
                        file := some (serialize (removeStep tasks id)) },
              tasks := removeStep tasks id,
              output := ["[-] Removed #" ++ toString id ++ "."],
              err := none }) := by
  refine ⟨removeStep_sublist tasks id, mem_removeStep tasks id, ?_, ?_⟩
  · intro h
    have he := removeStep_eq_self tasks id h
    refine ⟨he, fun serialize dirOk saveErr disk => ?_⟩
    simp [dispatch, he]
  · rintro ⟨t, ht, hid⟩ serialize disk
    have hlt : (removeStep tasks id).length < tasks.length :=
      (removeStep_length_lt tasks id).mpr ⟨t, ht, hid⟩
    simp only [dispatch, if_pos hlt]
    exact saveAndReport_success serialize disk _ _

/-- C6: when the data directory resolves, a missing backing file loads as the
empty collection (not an error); a file whose contents fail to parse makes
the load fail with the parse error, which `main` surfaces
(`Error loading tasks: ...`) and aborts on. -/
theorem C6_load_spec (parse : String → Except String (List Task))
    (serialize : List Task → String) (saveErr : Option WriteFail)
    (cmd : Commands) (dirEx : Bool) (raw e : String) :
    load_tasks parse true { dirExists := dirEx, file := none } =
        ({ dirExists := true, file := none }, .ok []) ∧
      (parse raw = .error e →
        load_tasks parse true { dirExists := dirEx, file := some raw } =
          ({ dirExists := true, file := some raw }, .error e)) ∧
      (parse raw = .error e →
        runInvocation parse serialize true saveErr
            { dirExists := dirEx, file := some raw } cmd =
          { disk := { dirExists := true, file := some raw }, tasks := [],
            output := [],
            err := some ("Error loading tasks: " ++ e) }) := by
  refine ⟨rfl, fun hp => ?_, fun hp => ?_⟩
  · simp [load_tasks, data_file, hp]
  · simp [runInvocation, load_tasks, data_file, hp]

/-- C7: List never saves — the backing file is bit-for-bit what it was — and
never mutates the collection; invoking List with no backing file present
succeeds, prints `No tasks found.`, and still leaves no file on disk. -/
theorem C7_list_pure (parse : String → Except String (List Task))
    (serialize : List Task → String) (dirOk : Bool) (saveErr : Option WriteFail)
    (disk : Disk) :
    (runInvocation parse serialize dirOk saveErr disk .list).disk.file =
        disk.file ∧
      (∀ disk1 tasks, load_tasks parse dirOk disk = (disk1, .ok tasks) →
        (runInvocation parse serialize dirOk saveErr disk .list).tasks =
          tasks) ∧
      (dirOk = true → disk.file = none →
        runInvocation parse serialize dirOk saveErr disk .list =
          { disk := { dirExists := true, file := none }, tasks := [],
            output := ["No tasks found."], err := none }) := by
  refine ⟨?_, ?_, ?_⟩
  · have hload := load_tasks_fst_file parse dirOk disk
    simp only [runInvocation]
    rcases hl : load_tasks parse dirOk disk with ⟨disk1, r⟩
    rw [hl] at hload
    cases r with
    | error e2 => exact hload
    | ok tasks =>
      dsimp only
      by_cases he : tasks.isEmpty <;> simp [dispatch, he] <;> exact hload
  · intro disk1 tasks hl
    simp only [runInvocation, hl]
    by_cases he : tasks.isEmpty <;> simp [dispatch, he]
  · rintro rfl hf
    have hl : load_tasks parse true disk =
        ({ dirExists := true, file := none }, .ok []) := by
      simp [load_tasks, data_file, hf]
    simp [runInvocation, hl, dispatch]

/-- C8: Done is idempotent — on a collection with unique ids (the spec's
invariant) containing a task with the given id already marked done, Done(id)
succeeds again and leaves the whole collection unchanged (the dispatch arm
re-saves the identical collection and confirms). -/
theorem C8_done_idempotent (tasks : List Task) (id : Nat) (t : Task)
    (hnd : (tasks.map Task.id).Nodup) (ht : t ∈ tasks) (hid : t.id = id)
    (hdone : t.done = true) :
    doneStep tasks id = some tasks ∧
      ∀ serialize disk,
        dispatch serialize true none disk tasks (.done id) =
          { disk := { dirExists := true, file := some (serialize tasks) },
            tasks := tasks,
            output := ["[✓] Marked #" ++ toString id ++ " done."],
            err := none } := by
  rcases List.append_of_mem ht with ⟨pre, post, rfl⟩
  rw [List.map_append, List.map_cons] at hnd
  have hdisj := (List.nodup_append.mp hnd).2.2
  have hpre : ∀ u ∈ pre, u.id ≠ id := by
    intro u hu he
    have hmem : u.id ∈ Task.id t :: post.map Task.id := by
      rw [he, ← hid]
      exact List.mem_cons_self _ _
    exact hdisj (List.mem_map_of_mem Task.id hu) hmem
  have hteq : { t with done := true } = t := by
    cases t with
    | mk i d b =>
      dsimp only at hdone
      rw [hdone]
  have hstep : doneStep (pre ++ t :: post) id = some (pre ++ t :: post) := by
    rw [doneStep_append_first pre t post id hid hpre, hteq]
  refine ⟨hstep, fun serialize disk => ?_⟩
  simp only [dispatch, hstep]
  exact saveAndReport_success serialize disk _ _

/-- C9: with duplicate ids in the loaded collection, Done(id) marks only the
first matching task in collection order (everything after the first match,
matching or not, is untouched), while Remove(id) deletes every task carrying
the id. -/
theorem C9_duplicate_ids (tasks : List Task) (id : Nat) :
    (∀ pre t post, t.id = id → (∀ u ∈ pre, u.id ≠ id) →
        doneStep (pre ++ t :: post) id =
          some (pre ++ { t with done := true } :: post)) ∧
      ∀ t ∈ removeStep tasks id, t.id ≠ id :=
  ⟨fun pre t post ht hpre => doneStep_append_first pre t post id ht hpre,
    fun t ht => ((mem_removeStep tasks id t).mp ht).2⟩

/-- C10: Add never rejects its input — for every argument list, the empty
list included, the dispatch arm appends a task whose description is the
space-joined text (possibly empty) and succeeds whenever the save does; its
only possible failure is a save failure. -/
theorem C10_add_total (serialize : List Task → String) (dirOk : Bool)
    (saveErr : Option WriteFail) (disk : Disk) (tasks : List Task)
    (descs : List String) :
    (dispatch serialize dirOk saveErr disk tasks (.add descs)).tasks =
        tasks ++ [{ id := next_id tasks,
                    description := String.intercalate " " descs,
                    done := false }] ∧
      ((dispatch serialize dirOk saveErr disk tasks (.add descs)).err = none ∨
        ∃ e, (dispatch serialize dirOk saveErr disk tasks (.add descs)).err =
          some ("Save error: " ++ e)) ∧
      (dirOk = true → saveErr = none →
        dispatch serialize dirOk saveErr disk tasks (.add descs) =
          { disk := { dirExists := true,
                      file := some (serialize (tasks ++
                        [{ id := next_id tasks,
                           description := String.intercalate " " descs,
                           done := false }])) },
            tasks := tasks ++ [{ id := next_id tasks,
                                 description := String.intercalate " " descs,
                                 done := false }],
            output := ["[+] Added #" ++ toString (next_id tasks) ++ ": " ++
              String.intercalate " " descs],
            err := none }) := by
  refine ⟨?_, ?_, ?_⟩
  · exact saveAndReport_tasks serialize dirOk saveErr disk _ _
  · exact saveAndReport_err_shape serialize dirOk saveErr disk _ _
  · rintro rfl rfl
    exact saveAndReport_success serialize disk _ _

/-! ### Witnesses: each hypothesis-bearing claim theorem applied at a
concrete input -/

/-- Witness for C2 (amended): a Done on a missing id, with no write failure
configured, exits with NotFound and leaves the (absent) backing file
absent. -/
theorem C2_all_or_nothing_amended_witness :
    ((∀ m k, (none : Option WriteFail) ≠ some (.writeFail m k)) →
        (runInvocation (fun _ => .ok []) (fun _ => "S") true none
            { dirExists := true, file := none } (.done 1)).disk.file =
          ({ dirExists := true, file := none } : Disk).file) ∧
      ((runInvocation (fun _ => .ok []) (fun _ => "S") true none
            { dirExists := true, file := none } (.done 1)).disk.file =
          ({ dirExists := true, file := none } : Disk).file ∨
        ∃ m k tasks1, (none : Option WriteFail) = some (.writeFail m k) ∧
          (runInvocation (fun _ => .ok []) (fun _ => "S") true none
              { dirExists := true, file := none } (.done 1)).disk.file =
            some (((fun _ => "S" : List Task → String) tasks1).take k)) :=
  C2_all_or_nothing_amended (fun _ => .ok []) (fun _ => "S") true none
    { dirExists := true, file := none } (.done 1) "Error: Task #1 not found."
    rfl

/-- Witness for C3: on the nonempty collection with ids 5 and 2 the next id
handed out is 5 + 1. -/
theorem C3_add_appends_witness :
    ∃ t ∈ ([{ id := 5, description := "a", done := true },
            { id := 2, description := "b", done := false }] : List Task),
      next_id [{ id := 5, description := "a", done := true },
               { id := 2, description := "b", done := false }] = t.id + 1 :=
  (C3_add_appends [{ id := 5, description := "a", done := true },
    { id := 2, description := "b", done := false }] ["x", "y"]).2.2.2
    (by decide)

/-- Witness for C4: Done 2 on a collection holding only id 1 reports
`Task #2 not found.` and changes nothing. -/
theorem C4_done_spec_witness :
    dispatch (fun _ => "S") true none { dirExists := true, file := none }
        [{ id := 1, description := "a", done := false }] (.done 2) =
      { disk := { dirExists := true, file := none },
        tasks := [{ id := 1, description := "a", done := false }],
        output := [],
        err := some ("Task #" ++ toString 2 ++ " not found.") } :=
  (C4_done_spec [{ id := 1, description := "a", done := false }] 2).2.2.2
    (by decide) (fun _ => "S") true none { dirExists := true, file := none }

/-- Witness for C5: Remove 1 on a two-task collection deletes task 1, saves
the remainder and confirms. -/
theorem C5_remove_spec_witness :
    dispatch (fun ts => toString ts.length) true none
        { dirExists := true, file := some "old" }
        [{ id := 1, description := "a", done := false },
         { id := 2, description := "b", done := true }] (.remove 1) =
      { disk := { dirExists := true,
                  file := some (toString (removeStep
                    [{ id := 1, description := "a", done := false },
                     { id := 2, description := "b", done := true }] 1).length) },
        tasks := removeStep
          [{ id := 1, description := "a", done := false },
           { id := 2, description := "b", done := true }] 1,
        output := ["[-] Removed #" ++ toString 1 ++ "."],
        err := none } :=
  (C5_remove_spec [{ id := 1, description := "a", done := false },
      { id := 2, description := "b", done := true }] 1).2.2.2
    ⟨{ id := 1, description := "a", done := false }, by decide, rfl⟩
    (fun ts => toString ts.length) { dirExists := true, file := some "old" }

/-- Witness for C6: a parse failure on file contents `not json` surfaces as
`Error loading tasks: bad json` with the file left as it was. -/
theorem C6_load_spec_witness :
    runInvocation (fun _ => .error "bad json") (fun _ => "S") true none
        { dirExists := true, file := some "not json" } .list =
      { disk := { dirExists := true, file := some "not json" }, tasks := [],
        output := [],
        err := some ("Error loading tasks: " ++ "bad json") } :=
  (C6_load_spec (fun _ => .error "bad json") (fun _ => "S") none .list true
    "not json" "bad json").2.2 rfl

/-- Witness for C7: List on an absent backing file succeeds, prints
`No tasks found.`, and creates no file. -/
theorem C7_list_pure_witness :
    runInvocation (fun _ => .ok []) (fun _ => "S") true
        (some (.createFail "boom")) { dirExists := false, file := none }
        .list =
      { disk := { dirExists := true, file := none }, tasks := [],
        output := ["No tasks found."], err := none } :=
  (C7_list_pure (fun _ => .ok []) (fun _ => "S") true
    (some (.createFail "boom")) { dirExists := false, file := none }).2.2
    rfl rfl

/-- Witness for C8: marking the already-done task 1 done again succeeds and
leaves the singleton collection unchanged. -/
theorem C8_done_idempotent_witness :
    doneStep [{ id := 1, description := "a", done := true }] 1 =
      some [{ id := 1, description := "a", done := true }] :=
  (C8_done_idempotent [{ id := 1, description := "a", done := true }] 1
    { id := 1, description := "a", done := true } (by decide) (by decide)
    rfl rfl).1

/-- Witness for C9: on two tasks both carrying id 1, Done 1 marks only the
first. -/
theorem C9_duplicate_ids_witness :
    doneStep ([] ++ { id := 1, description := "a", done := false } ::
        [{ id := 1, description := "b", done := false }]) 1 =
      some ([] ++ { id := 1, description := "a", done := true } ::
        [{ id := 1, description := "b", done := false }]) :=
  (C9_duplicate_ids [{ id := 1, description := "a", done := false },
      { id := 1, description := "b", done := false }] 1).1
    [] { id := 1, description := "a", done := false }
    [{ id := 1, description := "b", done := false }] rfl (by decide)

/-- Witness for C10: an Add with an empty argument list appends a task with
the empty description and succeeds. -/
theorem C10_add_total_witness :
    dispatch (fun _ => "S") true none { dirExists := true, file := none }
        [] (.add []) =
      { disk := { dirExists := true, file := some "S" },
        tasks := [{ id := next_id [], description := String.intercalate " " [],
                    done := false }],
        output := ["[+] Added #" ++ toString (next_id []) ++ ": " ++
          String.intercalate " " []],
        err := none } := by
  have h := (C10_add_total (fun _ => "S") true none
    { dirExists := true, file := none } [] []).2.2 rfl rfl
  simpa using h

end ToDo
